import Mathlib

/-!
Verification of the playferrous session and game-process orchestration fabric.
Each definition is a shallow embedding of the corresponding Rust item; theorems
settle the frozen claims about the specification.
-/

/-! ### Shared types (crate `playferrous-types`, `src/types/src/lib.rs`) -/

/-- Model of `GameTick(pub i64)`: logical time counter. -/
def GameTick := Int

instance : Add GameTick := inferInstanceAs (Add Int)
instance : DecidableEq GameTick := inferInstanceAs (DecidableEq Int)
instance : OfNat GameTick n := inferInstanceAs (OfNat Int n)
instance : Repr GameTick := inferInstanceAs (Repr Int)

/-- Model of `ConsoleUi { prompt: String }`. -/
structure ConsoleUi where
  prompt : String
deriving DecidableEq, Repr

/-- Model of `CommandResponse<T, G> { update_ui: Option<T>, advance: Option<G::Action> }`
specialised to the console UI; `α` is the game's action type. -/
structure CommandResponse (α : Type) where
  update_ui : Option ConsoleUi
  advance : Option α
deriving DecidableEq, Repr

/-- Model of `InProgressGameState { player_turn: i32, deadline: GameTick }`. -/
structure InProgressGameState where
  player_turn : Int
  deadline : GameTick
deriving DecidableEq, Repr

/-- Model of `PlayerResult { score: i64 }`. -/
structure PlayerResult where
  score : Int
deriving DecidableEq, Repr

/-- Model of `GameResult { player_results: Vec<PlayerResult> }`. -/
structure GameResult where
  player_results : List PlayerResult
deriving DecidableEq, Repr

/-- Model of `enum GameState { InProgress(..), Complete(..) }`. -/
inductive GameState where
  | inProgress (s : InProgressGameState)
  | complete (r : GameResult)
deriving DecidableEq, Repr

/-- Model of `GameSetup<G> { game_type, num_players, seed, rules }`; `ρ` is `G::Rules`. -/
structure GameSetup (ρ : Type) where
  game_type : String
  num_players : Int
  seed : Int
  rules : ρ
deriving DecidableEq, Repr

/-- Model of `char::to_ascii_lowercase` (code points 65–90 are `'A'..='Z'`). -/
def asciiLowerChar (c : Char) : Char :=
  if 65 ≤ c.toNat ∧ c.toNat ≤ 90 then Char.ofNat (c.toNat + 32) else c

/-- Model of `str::to_ascii_lowercase`. -/
def asciiLower (s : String) : String :=
  String.mk (s.data.map asciiLowerChar)

/-! ### Rock-paper-scissors game (`src/games/rock-paper-scissors/src/main.rs`) -/

namespace RPS

/-- Model of `enum Action { Rock, Paper, Scissors }`. -/
inductive Action where
  | rock
  | paper
  | scissors
deriving DecidableEq, Repr

/-- Model of `impl Display for Action`. -/
def Action.str : Action → String
  | .rock => "rock"
  | .paper => "paper"
  | .scissors => "scissors"

/-- Model of `enum Outcome { Won, Lost, Drew }`. -/
inductive Outcome where
  | won
  | lost
  | drew
deriving DecidableEq, Repr

/-- Model of `impl Neg for Outcome`. -/
def Outcome.neg : Outcome → Outcome
  | .won => .lost
  | .lost => .won
  | .drew => .drew

/-- Model of `impl Display for Outcome`. -/
def Outcome.str : Outcome → String
  | .won => "won"
  | .lost => "lost"
  | .drew => "drew"

/-- Model of `Outcome::score`. -/
def Outcome.score : Outcome → Int
  | .won => 3
  | .lost => 0
  | .drew => 1

/-- Model of `struct Rules { num_rounds: i64, turn_timeout: GameTick }`. -/
structure Rules where
  num_rounds : Int
  turn_timeout : GameTick
deriving DecidableEq, Repr

/-- Model of `struct Snapshot { .. }` with `#[derive(Default)]`. -/
structure Snapshot where
  player0_score : Int
  player1_score : Int
  rounds_played : Int
  player0_action : Option Action
  last_action : GameTick
  player0_prompt : String
  player1_prompt : String
deriving DecidableEq, Repr

/-- Model of `Snapshot::default()`. -/
def Snapshot.dflt : Snapshot :=
  { player0_score := 0
    player1_score := 0
    rounds_played := 0
    player0_action := none
    last_action := (0 : Int)
    player0_prompt := ""
    player1_prompt := "" }

/-- Model of `struct RockPaperScissors { rules: Rules, state: Snapshot }`. -/
structure Game where
  rules : Rules
  state : Snapshot
deriving DecidableEq, Repr

/-- Model of `RockPaperScissors::player_turn`. -/
def playerTurn (g : Game) : Int :=
  if g.state.player0_action.isSome then 1 else 0

/-- Model of `<RockPaperScissors as GameProcess>::new`. -/
def new (setup : GameSetup Rules) : Game :=
  { rules := setup.rules, state := Snapshot.dflt }

/-- Model of `<RockPaperScissors as GameProcess>::load_snapshot`. -/
def loadSnapshot (g : Game) (snapshot : Snapshot) : Game :=
  { g with state := snapshot }

/-- Model of `<RockPaperScissors as GameProcess>::save_snapshot`. -/
def saveSnapshot (g : Game) : Snapshot :=
  g.state

/-- The first-player outcome table inside `RockPaperScissors::advance`. -/
def outcomeFor : Action → Action → Outcome
  | .rock, .rock | .paper, .paper | .scissors, .scissors => .drew
  | .rock, .paper | .paper, .scissors | .scissors, .rock => .lost
  | .rock, .scissors | .scissors, .paper | .paper, .rock => .won

/-- Model of `<RockPaperScissors as GameProcess>::advance`. -/
def advance (g : Game) (tick : GameTick) (action : Option Action) : Game :=
  let st := g.state
  let st :=
    match st.player0_action with
    | some player0_action =>
      let st := { st with player0_action := none }
      let res :=
        match action with
        | some player1_action =>
          let player0_outcome := outcomeFor player0_action player1_action
          let player1_outcome := player0_outcome.neg
          let a0 := player0_action.str
          let a1 := player1_action.str
          let o0 := player0_outcome.str
          let o1 := player1_outcome.str
          (player0_outcome,
            { st with
              player0_prompt := s!"You played {a0} and {o0} against {a1}."
              player1_prompt := s!"You played {a1} and {o1} against {a0}." })
        | none =>
          (Outcome.won,
            { st with
              player0_prompt :=
                "You won this round because the other player took too long to go."
              player1_prompt :=
                "You lost this round because you took too long to go." })
      let player0_outcome := res.1
      let st := res.2
      { st with
        player0_score := st.player0_score + player0_outcome.score
        player1_score := st.player1_score + player0_outcome.neg.score
        rounds_played := st.rounds_played + 1 }
    | none =>
      let st :=
        if action.isNone then
          { st with
            player0_prompt := "You lost this round because you took too long to go."
            player1_prompt :=
              "You won this round because the other player took too long to go."
            player1_score := st.player1_score + 3
            rounds_played := st.rounds_played + 1 }
        else st
      { st with player0_action := action }
  { g with state := { st with last_action := tick } }

/-- Model of `<RockPaperScissors as GameProcess>::state`. -/
def state (g : Game) : GameState :=
  if g.state.rounds_played < g.rules.num_rounds then
    .inProgress
      { player_turn := playerTurn g
        deadline := g.state.last_action + g.rules.turn_timeout }
  else
    .complete
      { player_results :=
          [{ score := g.state.player0_score }, { score := g.state.player1_score }] }

/-- Model of `<RockPaperScissors as GameProcess>::interpret_console_command`. -/
def interpretConsoleCommand (g : Game) (player : Int) (command : String) :
    Option (CommandResponse (Option Action)) :=
  some <|
    if player ≠ playerTurn g then
      { update_ui := some { prompt := "It's not your turn yet!" }, advance := none }
    else
      match asciiLower command with
      | "r" | "rock" => { update_ui := none, advance := some (some .rock) }
      | "p" | "paper" => { update_ui := none, advance := some (some .paper) }
      | "s" | "scissors" => { update_ui := none, advance := some (some .scissors) }
      | other =>
        { update_ui := some { prompt := s!"Invalid command: {other}" }, advance := none }

/-- Model of `<RockPaperScissors as GameProcess>::render_console_ui`. The prompt string is
composed exactly as in the source, then the function returns `Ok(None)`,
discarding it. -/
def renderConsoleUi (g : Game) (player : Int) : Except String (Option ConsoleUi) :=
  let firstBlock : Except String String :=
    if g.state.player0_action.isNone then
      if g.state.rounds_played > 0 then
        let r := toString g.state.rounds_played
        let n := toString g.rules.num_rounds
        let base := s!"Round {r} of {n} - "
        if player = 0 then .ok (base ++ g.state.player0_prompt ++ "\n")
        else if player = 1 then .ok (base ++ g.state.player1_prompt ++ "\n")
        else .error "Invalid player number"
      else .ok ""
    else .ok ""
  match firstBlock with
  | .error e => .error e
  | .ok prompt =>
    let _prompt :=
      if g.state.rounds_played < g.rules.num_rounds then
        let r := toString (g.state.rounds_played + 1)
        let n := toString g.rules.num_rounds
        let base := prompt ++ s!"Round {r} of {n} - "
        if playerTurn g = player then
          base ++ "It's your go! Enter [r]ock, [p]aper or [s]cissors:" ++ "\n"
        else
          base ++ "Waiting for the other player..." ++ "\n"
      else prompt
    .ok none

end RPS

/-! ### Game subprocess driver (`src/process-launcher/src/lib.rs`)

The driver is generic over `G: Game`; `S`, `A`, `R` stand for `G::Snapshot`,
`G::Action`, `G::Rules`. The wire is modelled explicitly: `input` is the
sequence of response lines the subprocess will produce, `output` is the
sequence of request lines written so far. -/

namespace Driver

/-- Model of `enum GameProcessRequest<G>` (the driver-side request schema). -/
inductive GameProcessRequest (S A R : Type) where
  | init (setup : GameSetup R)
  | loadSnapshot (tick : GameTick) (snapshot : S)
  | saveSnapshot
  | advance (tick : GameTick) (action : A)
  | state
  | renderConsoleUi (player : Int)
  | interpretConsoleCommand (player : Int) (command : String)
deriving DecidableEq

/-- Model of `enum GameProcessResponse<G>` (the driver-side response schema). -/
inductive GameProcessResponse (S A : Type) where
  | init
  | loadSnapshot
  | saveSnapshot (snapshot : S)
  | advance
  | state (s : GameState)
  | renderConsoleUi (ui : Option ConsoleUi)
  | interpretConsoleCommand (r : Option (CommandResponse A))
deriving DecidableEq

/-- The serde discriminator (variant tag) of a request. -/
def reqTag {S A R : Type} : GameProcessRequest S A R → Nat
  | .init _ => 0
  | .loadSnapshot _ _ => 1
  | .saveSnapshot => 2
  | .advance _ _ => 3
  | .state => 4
  | .renderConsoleUi _ => 5
  | .interpretConsoleCommand _ _ => 6

/-- The serde discriminator (variant tag) of a response. -/
def respTag {S A : Type} : GameProcessResponse S A → Nat
  | .init => 0
  | .loadSnapshot => 1
  | .saveSnapshot _ => 2
  | .advance => 3
  | .state _ => 4
  | .renderConsoleUi _ => 5
  | .interpretConsoleCommand _ => 6

/-- Model of `enum GameError` of the launcher crate together with the `anyhow` errors the
driver can produce: a read/parse failure of the response line, or the
`response_type_error` raised on a mismatched discriminator. -/
inductive DriverError where
  | readFailed
  | invalidResponse
  | unsupportedPresentationMode
deriving DecidableEq

/-- The stdin/stdout wire of one subprocess, seen from the driver. -/
structure Wire (S A R : Type) where
  input : List (GameProcessResponse S A)
  output : List (GameProcessRequest S A R)

/-- Model of `GameInstanceProcess::request`: write the request line, flush, read exactly
one response line. An exhausted input models EOF / an unparsable line. -/
def sendRequest {S A R : Type} (req : GameProcessRequest S A R) (w : Wire S A R) :
    Except DriverError (GameProcessResponse S A) × Wire S A R :=
  let w1 : Wire S A R := { w with output := w.output ++ [req] }
  match w1.input with
  | [] => (.error .readFailed, w1)
  | r :: rest => (.ok r, { w1 with input := rest })

/-- Model of `GameInstanceProcess::load_snapshot`. -/
def loadSnapshot {S A R : Type} (tick : GameTick) (snapshot : S) (w : Wire S A R) :
    Except DriverError Unit × Wire S A R :=
  match sendRequest (.loadSnapshot tick snapshot) w with
  | (.error e, w1) => (.error e, w1)
  | (.ok resp, w1) =>
    match resp with
    | .loadSnapshot => (.ok (), w1)
    | _ => (.error .invalidResponse, w1)

/-- Model of `GameInstanceProcess::save_snapshot`. -/
def saveSnapshot {S A R : Type} (w : Wire S A R) :
    Except DriverError S × Wire S A R :=
  match sendRequest .saveSnapshot w with
  | (.error e, w1) => (.error e, w1)
  | (.ok resp, w1) =>
    match resp with
    | .saveSnapshot snapshot => (.ok snapshot, w1)
    | _ => (.error .invalidResponse, w1)

/-- Model of `GameInstanceProcess::advance`. -/
def advance {S A R : Type} (tick : GameTick) (action : A) (w : Wire S A R) :
    Except DriverError Unit × Wire S A R :=
  match sendRequest (.advance tick action) w with
  | (.error e, w1) => (.error e, w1)
  | (.ok resp, w1) =>
    match resp with
    | .advance => (.ok (), w1)
    | _ => (.error .invalidResponse, w1)

/-- Model of `GameInstanceProcess::state`. -/
def state {S A R : Type} (w : Wire S A R) :
    Except DriverError GameState × Wire S A R :=
  match sendRequest .state w with
  | (.error e, w1) => (.error e, w1)
  | (.ok resp, w1) =>
    match resp with
    | .state s => (.ok s, w1)
    | _ => (.error .invalidResponse, w1)

/-- Model of `GameInstanceProcess::render_console_ui`: a matching response whose payload
is `None` becomes `GameError::UnsupportedPresentationMode`. -/
def renderConsoleUi {S A R : Type} (player : Int) (w : Wire S A R) :
    Except DriverError ConsoleUi × Wire S A R :=
  match sendRequest (.renderConsoleUi player) w with
  | (.error e, w1) => (.error e, w1)
  | (.ok resp, w1) =>
    match resp with
    | .renderConsoleUi (some ui) => (.ok ui, w1)
    | .renderConsoleUi none => (.error .unsupportedPresentationMode, w1)
    | _ => (.error .invalidResponse, w1)

/-- Model of `GameInstanceProcess::interpret_console_command`. -/
def interpretConsoleCommand {S A R : Type} (player : Int) (command : String)
    (w : Wire S A R) : Except DriverError (CommandResponse A) × Wire S A R :=
  match sendRequest (.interpretConsoleCommand player command) w with
  | (.error e, w1) => (.error e, w1)
  | (.ok resp, w1) =>
    match resp with
    | .interpretConsoleCommand (some r) => (.ok r, w1)
    | .interpretConsoleCommand none => (.error .unsupportedPresentationMode, w1)
    | _ => (.error .invalidResponse, w1)

/-- The `Initialize` exchange performed by `ProcessLauncher::launch`. -/
def init {S A R : Type} (setup : GameSetup R) (w : Wire S A R) :
    Except DriverError Unit × Wire S A R :=
  match sendRequest (.init setup) w with
  | (.error e, w1) => (.error e, w1)
  | (.ok resp, w1) =>
    match resp with
    | .init => (.ok (), w1)
    | _ => (.error .invalidResponse, w1)

/-- The result value of a driver operation, for stating properties uniformly. -/
inductive DriverValue (S A : Type) where
  | unit
  | snap (s : S)
  | st (s : GameState)
  | ui (u : ConsoleUi)
  | cmd (c : CommandResponse A)

/-- Run the driver operation whose request is `req`, dispatching to the
operation implementations above. Each `GameProcessRequest` constructor is
issued by exactly one driver operation. -/
def runOp {S A R : Type} (req : GameProcessRequest S A R) (w : Wire S A R) :
    Except DriverError (DriverValue S A) × Wire S A R :=
  match req with
  | .init setup =>
    let r := init setup w
    (r.1.map fun _ => .unit, r.2)
  | .loadSnapshot tick snapshot =>
    let r := loadSnapshot tick snapshot w
    (r.1.map fun _ => .unit, r.2)
  | .saveSnapshot =>
    let r := saveSnapshot (R := R) w
    (r.1.map .snap, r.2)
  | .advance tick action =>
    let r := advance tick action w
    (r.1.map fun _ => .unit, r.2)
  | .state =>
    let r := state (R := R) w
    (r.1.map .st, r.2)
  | .renderConsoleUi player =>
    let r := renderConsoleUi player w
    (r.1.map .ui, r.2)
  | .interpretConsoleCommand player command =>
    let r := interpretConsoleCommand player command w
    (r.1.map .cmd, r.2)

end Driver

/-! ### Game subprocess main loop (`src/types/src/process.rs`)

`GameRequest`/`GameResponse` are the types-crate schema (note: its
`LoadSnapshot` request carries only the snapshot). `GameImpl` packages the
methods of the `GameProcess` trait; since the Rust methods take `&mut self`,
every method returns the updated game value. -/

namespace Process

/-- Model of `enum GameRequest<G>`. -/
inductive GameRequest (S A R : Type) where
  | init (setup : GameSetup R)
  | loadSnapshot (snapshot : S)
  | saveSnapshot
  | advance (tick : GameTick) (action : A)
  | state
  | renderConsoleUi (player : Int)
  | interpretConsoleCommand (player : Int) (command : String)
deriving DecidableEq

/-- Model of `enum GameResponse<G>`. -/
inductive GameResponse (S A : Type) where
  | init
  | loadSnapshot
  | saveSnapshot (snapshot : S)
  | advance
  | state (s : GameState)
  | renderConsoleUi (ui : Option ConsoleUi)
  | interpretConsoleCommand (r : Option (CommandResponse A))
deriving DecidableEq

/-- The serde discriminator (variant tag) of a request. -/
def reqTag {S A R : Type} : GameRequest S A R → Nat
  | .init _ => 0
  | .loadSnapshot _ => 1
  | .saveSnapshot => 2
  | .advance _ _ => 3
  | .state => 4
  | .renderConsoleUi _ => 5
  | .interpretConsoleCommand _ _ => 6

/-- The serde discriminator (variant tag) of a response. -/
def respTag {S A : Type} : GameResponse S A → Nat
  | .init => 0
  | .loadSnapshot => 1
  | .saveSnapshot _ => 2
  | .advance => 3
  | .state _ => 4
  | .renderConsoleUi _ => 5
  | .interpretConsoleCommand _ => 6

/-- The methods of `trait GameProcess` for one game implementation; `σ` is the
implementing type. -/
structure GameImpl (σ S A R : Type) where
  new : GameSetup R → Except String σ
  load : σ → S → Except String σ
  save : σ → Except String (σ × S)
  adv : σ → GameTick → A → Except String σ
  st : σ → Except String (σ × GameState)
  render : σ → Int → Except String (σ × Option ConsoleUi)
  interpret : σ → Int → String → Except String (σ × Option (CommandResponse A))

/-- One iteration of `GameProcess::main`: dispatch a parsed request against the
current `Option<Self>` game state, producing the updated state and the
response, or failing the loop. The catch-all arm is the
`bail!("Unexpected gmae request: ..")` of the source. -/
def mainStep {σ S A R : Type} (impl : GameImpl σ S A R) (game : Option σ)
    (req : GameRequest S A R) : Except String (Option σ × GameResponse S A) :=
  match game, req with
  | none, .init setup =>
    (impl.new setup).map fun g => (some g, .init)
  | some g, .loadSnapshot snapshot =>
    (impl.load g snapshot).map fun g2 => (some g2, .loadSnapshot)
  | some g, .saveSnapshot =>
    (impl.save g).map fun r => (some r.1, .saveSnapshot r.2)
  | some g, .advance tick action =>
    (impl.adv g tick action).map fun g2 => (some g2, .advance)
  | some g, .state =>
    (impl.st g).map fun r => (some r.1, .state r.2)
  | some g, .renderConsoleUi player =>
    (impl.render g player).map fun r => (some r.1, .renderConsoleUi r.2)
  | some g, .interpretConsoleCommand player command =>
    (impl.interpret g player command).map fun r => (some r.1, .interpretConsoleCommand r.2)
  | _, _ => .error "Unexpected gmae request"

/-- The rock-paper-scissors instantiation of the trait methods. -/
def rpsImpl : GameImpl RPS.Game RPS.Snapshot (Option RPS.Action) RPS.Rules :=
  { new := fun setup => .ok (RPS.new setup)
    load := fun g s => .ok (RPS.loadSnapshot g s)
    save := fun g => .ok (g, RPS.saveSnapshot g)
    adv := fun g t a => .ok (RPS.advance g t a)
    st := fun g => .ok (g, RPS.state g)
    render := fun g p => (RPS.renderConsoleUi g p).map fun u => (g, u)
    interpret := fun g p c => .ok (g, RPS.interpretConsoleCommand g p c) }

end Process

/-! ### Transaction envelope (`src/server/src/database/transaction.rs`)

A hook is identified by `id` and has a fixed `outcome`; running a hook appends
its id to the execution log. `commitTx` mirrors `Transaction::commit`: the
inner transaction is committed first (its result is an input), then the hooks
run sequentially, each followed by `?`. Dropping the envelope without commit
runs nothing. -/

namespace Tx

deriving instance DecidableEq for Except

/-- One registered `TransactionHook`, with the result its `post_commit` returns. -/
structure TxHook where
  id : Nat
  outcome : Except String Unit
deriving DecidableEq

/-- The hook loop of `Transaction::commit`: run hooks in registration order,
stopping at (and returning) the first failure. Produces the list of hook ids
that actually executed and the overall result. -/
def runHooks : List TxHook → List Nat × Except String Unit
  | [] => ([], .ok ())
  | h :: t =>
    match h.outcome with
    | .ok () =>
      let r := runHooks t
      (h.id :: r.1, r.2)
    | .error e => ([h.id], .error e)

/-- Model of `Transaction::commit`: commit the inner transaction; on its failure no hook
runs; on success run the hooks. -/
def commitTx (hooks : List TxHook) (innerResult : Except String Unit) :
    List Nat × Except String Unit :=
  match innerResult with
  | .error e => ([], .error e)
  | .ok () => runHooks hooks

/-- Dropping the envelope without calling `commit`: the inner transaction rolls
back and the hooks are discarded — the list of executed hook ids. -/
def dropTx (_hooks : List TxHook) : List Nat := []

end Tx

/-! ### Typed ids (`declare_ids!` in `src/presentation/src/lib.rs`) -/

namespace Ids

/-- The seven id types declared by `declare_ids!`. -/
inductive IdKind where
  | user
  | game
  | proposal
  | session
  | request
  | message
  | group
deriving DecidableEq

/-- The one-letter textual rendering character of each id type. -/
def letterChar : IdKind → Char
  | .user => 'u'
  | .game => 'g'
  | .proposal => 'p'
  | .session => 's'
  | .request => 'r'
  | .message => 'm'
  | .group => 'o'

/-- Decimal digit character for `d < 10`. -/
def digitChar (d : Nat) : Char := Char.ofNat (48 + d)

/-- Decimal rendering of a natural number, as `i64`'s `Display` renders it. -/
def natDecimal (n : Nat) : List Char :=
  if n = 0 then ['0'] else (Nat.digits 10 n).reverse.map digitChar

/-- Decimal rendering of a signed integer, as `i64`'s `Display` renders it. -/
def intDecimal (v : Int) : List Char :=
  if v < 0 then '-' :: natDecimal v.natAbs else natDecimal v.natAbs

/-- Model of `Display for $name`: `write!(f, "{}{}", $prefix, self.0)`. -/
def formatId (k : IdKind) (v : Int) : String :=
  String.mk (letterChar k :: intDecimal v)

/-- Numeric value of a decimal digit character. -/
def digitVal (c : Char) : Option Nat :=
  if 48 ≤ c.toNat ∧ c.toNat ≤ 57 then some (c.toNat - 48) else none

/-- Accumulating decimal parse; fails on any non-digit character. -/
def parseDigitsAux : List Char → Nat → Option Nat
  | [], acc => some acc
  | c :: cs, acc =>
    match digitVal c with
    | some d => parseDigitsAux cs (acc * 10 + d)
    | none => none

/-- Shared digit-run parse of `<i64 as FromStr>::from_str`: at least one
digit, nothing else, and the (signed) value must fit in `i64`. -/
def parseI64Core (sign : Bool) (ds : List Char) : Option Int :=
  if ds.isEmpty then none
  else
    match parseDigitsAux ds 0 with
    | none => none
    | some n =>
      let v : Int := if sign then -(n : Int) else (n : Int)
      if -(2 ^ 63) ≤ v ∧ v < 2 ^ 63 then some v else none

/-- Model of `<i64 as FromStr>::from_str`: optional sign, then digits. -/
def parseI64 (s : List Char) : Option Int :=
  match s with
  | [] => none
  | c :: rest =>
    if c = '-' then parseI64Core true rest
    else if c = '+' then parseI64Core false rest
    else parseI64Core false (c :: rest)

/-- Model of `FromStr for $name`: strip the one-letter rendering character (failing with
`InvalidIdError` when it does not match), then parse the rest as an `i64`. -/
def parseId (k : IdKind) (s : String) : Option Int :=
  match s.data with
  | [] => none
  | c :: rest => if c = letterChar k then parseI64 rest else none

end Ids

/-! ### Terminal command interpreter (`src/server/src/terminal_session/ui.rs`)

The `Ui` tree is the parsed `ui.toml`; the interpreter is verified for every
configuration value. -/

namespace Tui

mutual
/-- Model of `struct UiGroup { help_text, command }`. -/
inductive UiGroup where
  | mk (help_text : String) (command : List UiCommand) : UiGroup
/-- Model of `struct UiCommand { help_text, name, args, subgroup }`. -/
inductive UiCommand where
  | mk (help_text : String) (name : String) (args : String)
      (subgroup : List UiGroup) : UiCommand
end

/-- The commands of a group. -/
def UiGroup.command : UiGroup → List UiCommand
  | .mk _ c => c

/-- The name of a command. -/
def UiCommand.name : UiCommand → String
  | .mk _ n _ _ => n

/-- The subgroups of a command. -/
def UiCommand.subgroup : UiCommand → List UiGroup
  | .mk _ _ _ s => s

/-- Model of `struct Ui { help_text, group }`. -/
structure Ui where
  help_text : String
  group : List UiGroup

/-- Model of `enum CommandInterpretation`. -/
inductive CommandInterpretation where
  | action (command : String) (args : List String)
  | response (prompt : String)
  | noop
deriving DecidableEq

/-- Model of `char::is_ascii_whitespace`. -/
def isAsciiWhitespace (c : Char) : Bool :=
  c = ' ' ∨ c = '\t' ∨ c = '\n' ∨ c = '\x0c' ∨ c = '\r'

/-- Accumulating splitter over the character list: `acc` is the reversed
current token. -/
def tokensGo : List Char → List Char → List String
  | [], acc => if acc.isEmpty then [] else [String.mk acc.reverse]
  | c :: cs, acc =>
    if isAsciiWhitespace c then
      if acc.isEmpty then tokensGo cs [] else String.mk acc.reverse :: tokensGo cs []
    else tokensGo cs (c :: acc)

/-- Model of `str::split_ascii_whitespace` composed with the source's
`.filter(|part| !part.is_empty())` (the split already yields no empty
tokens). -/
def tokens (s : String) : List String :=
  tokensGo s.data []

/-- Model of `str::eq_ignore_ascii_case`. -/
def eqIgnoreAsciiCase (a b : String) : Bool :=
  asciiLower a == asciiLower b

/-- The double `for` loop over groups and their commands that both
`interpret_command_inner` and `interpret_subcommand` use to find the first
command whose name matches the token ASCII-case-insensitively. -/
def findCommand (groups : List UiGroup) (part : String) : Option UiCommand :=
  groups.findSome? fun g => g.command.find? fun c => eqIgnoreAsciiCase c.name part

/-- Model of `UiCommand::interpret_subcommand`. `pre` is the accumulated name path and
`parts` the remaining tokens of the line. -/
def interpretSubcommand (c : UiCommand) (pre : List String) (parts : List String) :
    CommandInterpretation :=
  let command := String.intercalate " " pre
  if c.subgroup.isEmpty then
    .action command parts
  else
    match parts with
    | part :: rest =>
      match findCommand c.subgroup part with
      | some c2 => interpretSubcommand c2 (pre ++ [c2.name]) rest
      | none =>
        .response s!"Unrecognised subcommand. Use `help {command}` for more information.\n"
    | [] => .action command []
termination_by parts.length
decreasing_by simp

/-- Model of `Ui::interpret_command_inner`. -/
def interpretCommandInner (ui : Ui) (line : String) : CommandInterpretation :=
  match tokens line with
  | [] => .noop
  | part :: rest =>
    match findCommand ui.group part with
    | some c => interpretSubcommand c [c.name] rest
    | none => .response "Unrecognised command. Use `help` for more information.\n"

end Tui

/-! ### Connection actor (`src/server/src/connection_manager.rs`)

The handler outcome distinguishes the source's `ConnectionError::Present`
(soft, shown as an error line), `ConnectionError::Internal` (hard, aborts the
actor) and a `todo!()` panic, which unwinds the task. Database and manager
calls are abstracted into an environment of oracle results. -/

namespace Conn

/-- Model of `CreateGameProposal { game_type }`. -/
structure CreateGameProposal where
  game_type : String
deriving DecidableEq

/-- Model of `TerminalSessionCommand::Line`. -/
inductive TerminalSessionCommand where
  | line (text : String)
deriving DecidableEq

/-- Model of `SessionCommand::Terminal`. -/
inductive SessionCommand where
  | terminal (cmd : TerminalSessionCommand)
deriving DecidableEq

/-- Model of `enum PresentationToConnectionMsg`. -/
inductive PresentationToConnectionMsg where
  | listGames
  | listProposals
  | listSessions
  | listMessages
  | propose (proposal : CreateGameProposal)
  | withdraw (proposal_id : Int)
  | enter (session_id : Int)
  | exit
  | sessionCommand (cmd : SessionCommand)
deriving DecidableEq

/-- Model of `enum ConnectionToPresentationMsg`, with list payloads abstracted to their
rendered rows. -/
inductive ConnectionToPresentationMsg where
  | enteredSession
  | exitedSession
  | sessionEvent (line : String)
  | error (line : String)
  | messageList (rows : List String)
  | proposalList (rows : List String)
  | sessionList (rows : List String)
deriving DecidableEq

/-- Model of `enum ConnectionError { Present(String), Internal(..) }`. -/
inductive ConnErr where
  | present (line : String)
  | internal (msg : String)
deriving DecidableEq

/-- How one handler invocation ends: success, a soft error, a hard error, or a
panic (`todo!()`). -/
inductive HandlerResult where
  | ok
  | present (line : String)
  | internal (msg : String)
  | panicked (msg : String)
deriving DecidableEq

/-- Oracle results for the database transactions and session-manager calls the
handler performs. -/
structure ConnEnv where
  proposeRes : Except ConnErr Unit
  proposalsRes : Except ConnErr (List String)
  sessionsRes : Except ConnErr (List String)
  messagesRes : Except ConnErr (List String)
  enterRes : Except ConnErr Unit

/-- The connection actor state relevant to the handler: whether an
`active_session` is set. -/
structure ConnState where
  active_session : Bool
deriving DecidableEq

/-- Lift an oracle `Err` into the handler outcome. -/
def liftErr (e : ConnErr) : HandlerResult :=
  match e with
  | .present line => .present line
  | .internal msg => .internal msg

/-- Model of `ConnectionActor::handle_presentation_msg`: result, updated state, and the
messages sent to the presentation. `ListGames`, `Withdraw` are `todo!()` in the
source and therefore panic. -/
def handlePresentationMsg (env : ConnEnv) (st : ConnState)
    (msg : PresentationToConnectionMsg) :
    HandlerResult × ConnState × List ConnectionToPresentationMsg :=
  match msg with
  | .listGames => (.panicked "not yet implemented", st, [])
  | .listProposals =>
    match env.proposalsRes with
    | .ok rows => (.ok, st, [.proposalList rows])
    | .error e => (liftErr e, st, [])
  | .listSessions =>
    match env.sessionsRes with
    | .ok rows => (.ok, st, [.sessionList rows])
    | .error e => (liftErr e, st, [])
  | .listMessages =>
    match env.messagesRes with
    | .ok rows => (.ok, st, [.messageList rows])
    | .error e => (liftErr e, st, [])
  | .propose _ =>
    match env.proposeRes with
    | .ok () => (.ok, st, [])
    | .error e => (liftErr e, st, [])
  | .withdraw _ => (.panicked "not yet implemented", st, [])
  | .enter _ =>
    match env.enterRes with
    | .ok () => (.ok, { active_session := true }, [.enteredSession])
    | .error e => (liftErr e, st, [])
  | .exit =>
    if st.active_session then (.ok, { active_session := false }, [.exitedSession])
    else (.present "No active session", st, [])
  | .sessionCommand _ => (.ok, st, [])

/-- What `ConnectionActor::run` does next after one handler invocation. -/
inductive LoopOutcome where
  | continues (sent : List ConnectionToPresentationMsg)
  | aborts (msg : String)
deriving DecidableEq

/-- The error policy of the `run` loop: `Ok` continues; `Present(e)` sends an
`Error(e)` line and continues; `Internal` returns the error, ending the actor;
a panic unwinds the task, also ending the actor (without sending anything
further). -/
def runPolicy (r : HandlerResult × ConnState × List ConnectionToPresentationMsg) :
    LoopOutcome :=
  match r.1 with
  | .ok => .continues r.2.2
  | .present e => .continues (r.2.2 ++ [.error e])
  | .internal m => .aborts m
  | .panicked m => .aborts m

end Conn

/-! ### Proposal creation (`src/server/src/database/proposal.rs`)

The store is modelled as in-memory tables with serial ids; `NOW()` is the
`now` field (in seconds). `create` performs its two `INSERT`s against the same
transaction, so the model applies both to the same state in one step; the
`created_at` column default (`NOW()`) is taken from insertion time. -/

namespace Db

/-- An opaque `jsonb` value; `create` inserts `'null'::jsonb`. -/
inductive DbJson where
  | null
  | blob (s : String)
deriving DecidableEq

/-- Model of `struct GameProposal` (the `game_proposal` row). -/
structure GameProposalRow where
  id : Int
  game_type : String
  is_public : Bool
  min_players : Int
  max_players : Int
  mod_players : Int
  rules : DbJson
  created_at : Int
  deadline : Int
deriving DecidableEq

/-- Model of `enum SessionType { Game, GameProposal }`. -/
inductive SessionType where
  | game
  | gameProposal
deriving DecidableEq

/-- The `session` row. -/
structure SessionRow where
  id : Int
  type_ : SessionType
  user_id : Int
  created_at : Int
  game_id : Option Int
  game_player_index : Option Int
  game_proposal_id : Option Int
  is_ready : Bool
deriving DecidableEq

/-- The in-memory model of the relational store. -/
structure Store where
  now : Int
  next_proposal_id : Int
  next_session_id : Int
  proposals : List GameProposalRow
  sessions : List SessionRow

/-- Model of `proposal::create`: insert the proposal row with its fixed defaults and the
`GameProposal` session row seating the proposing user, both against the same
transaction; return the proposal. -/
def proposalCreate (db : Store) (game_type : String) (user_id : Int) :
    Store × GameProposalRow :=
  let p : GameProposalRow :=
    { id := db.next_proposal_id
      game_type := game_type
      is_public := false
      min_players := 2
      max_players := 8
      mod_players := 1
      rules := .null
      created_at := db.now
      deadline := db.now + 5 * 60 }
  let s : SessionRow :=
    { id := db.next_session_id
      type_ := .gameProposal
      user_id := user_id
      created_at := db.now
      game_id := none
      game_player_index := none
      game_proposal_id := some p.id
      is_ready := false }
  ({ db with
      next_proposal_id := db.next_proposal_id + 1
      next_session_id := db.next_session_id + 1
      proposals := db.proposals ++ [p]
      sessions := db.sessions ++ [s] }, p)

end Db

/-! ### Proposal session actor broadcast (`src/server/src/proposal_manager.rs`)

Connections are the keys of the actor's `connections: HashMap<UserId, _>`
(hence pairwise distinct). Whether a `send_timeout` of 200 ms expires is an
environment fact: `delay u m` is how many milliseconds user `u`'s inbox needs
before accepting message `m`. `broadcast` snapshots the current user ids and
sends to each in turn; a timed-out send removes the user and recursively
broadcasts `UserExited` to the users still connected, exactly as
`ProposalActor::{broadcast, send_to_user, timeout_user}` do. The function
returns the remaining connections and the log of successful deliveries. -/

namespace PActor

/-- Model of `enum SessionToConnectionMsg` as the proposal actor sends it. -/
inductive SMsg where
  | userEntered (u : Int)
  | userExited (u : Int)
  | line (text : String)
deriving DecidableEq

/-- The environment: per-recipient inbox delay in milliseconds. -/
structure Env where
  delay : Int → SMsg → Nat

/-- Model of `const USER_TIMEOUT: Duration = Duration::from_millis(200)`. -/
def USER_TIMEOUT : Nat := 200

/-- A `send_timeout(cmd, USER_TIMEOUT)` expires iff the recipient needs longer
than the timeout. -/
def timesOut (env : Env) (u : Int) (m : SMsg) : Bool :=
  decide (USER_TIMEOUT < env.delay u m)

/-- The broadcast loop: `snapshot` is the copied key list being iterated,
`conns` the live connection map. Mirrors `broadcast` (the loop),
`send_to_user` (the membership check and the timed send) and `timeout_user`
(removal plus recursive `UserExited` broadcast). The result is bundled with
the fact that connections only get removed, which bounds the recursion. -/
def go (env : Env) (snapshot : List Int) (conns : List Int) (msg : SMsg) :
    { r : List Int × List (Int × SMsg) // r.1.length ≤ conns.length } :=
  match snapshot with
  | [] => ⟨(conns, []), Nat.le_refl _⟩
  | uid :: rest =>
    if hmem : uid ∈ conns then
      if timesOut env uid msg then
        let conns1 := conns.erase uid
        have h1 : conns1.length < conns.length := by
          have := List.length_erase_of_mem hmem
          have hpos : 0 < conns.length := List.length_pos.mpr (List.ne_nil_of_mem hmem)
          simp only [conns1, this]
          omega
        let r1 := go env conns1 conns1 (SMsg.userExited uid)
        let r2 := go env rest r1.val.1 msg
        ⟨(r2.val.1, r1.val.2 ++ r2.val.2),
          Nat.le_of_lt (Nat.lt_of_le_of_lt (Nat.le_trans r2.property r1.property) h1)⟩
      else
        let r2 := go env rest conns msg
        ⟨(r2.val.1, (uid, msg) :: r2.val.2), r2.property⟩
    else
      go env rest conns msg
termination_by (conns.length, snapshot.length)
decreasing_by
  · exact Prod.Lex.left _ _ h1
  · exact Prod.Lex.left _ _ (Nat.lt_of_le_of_lt r1.property h1)
  · exact Prod.Lex.right _ (by simp)
  · exact Prod.Lex.right _ (by simp)

/-- Model of `ProposalActor::broadcast`: iterate over a snapshot of the current user
ids, sending `msg` to each with the 200 ms timeout. -/
def broadcast (env : Env) (conns : List Int) (msg : SMsg) :
    List Int × List (Int × SMsg) :=
  (go env conns conns msg).val

end PActor

/-! ### Concrete instances used by the claims -/

/-- The setup of the scenario: `num_rounds = 1`, `turn_timeout = 100`. -/
def exSetup : GameSetup RPS.Rules :=
  { game_type := "rock-paper-scissors"
    num_players := 2
    seed := 0
    rules := { num_rounds := 1, turn_timeout := (100 : Int) } }

/-- The freshly initialized game of the scenario. -/
def exG0 : RPS.Game := RPS.new exSetup

/-- After player 0's `Advance` with `Rock`. -/
def exG1 : RPS.Game := RPS.advance exG0 (1 : Int) (some .rock)

/-- After player 1's `Advance` with `Paper`. -/
def exG2 : RPS.Game := RPS.advance exG1 (2 : Int) (some .paper)

/-- A two-round game, freshly initialized. -/
def exH0 : RPS.Game :=
  RPS.new
    { game_type := "rock-paper-scissors"
      num_players := 2
      seed := 0
      rules := { num_rounds := 2, turn_timeout := (100 : Int) } }

/-- Two-round game after player 0 plays `Rock`. -/
def exH1 : RPS.Game := RPS.advance exH0 (1 : Int) (some .rock)

/-- Two-round game after round one completes (`Rock` vs `Paper`). -/
def exH2 : RPS.Game := RPS.advance exH1 (2 : Int) (some .paper)

/-- Two-round game with one round played and player 0's second action
pending. -/
def exH3 : RPS.Game := RPS.advance exH2 (3 : Int) (some .rock)

/-! ### Theorems -/

/-- Claim C3: for rock-paper-scissors with `num_rounds = 1`, from the initial
snapshot, interpreting `"r"` for player 0 yields an advance action `Rock`,
interpreting `"p"` for player 1 (after player 0's advance) yields `Paper`, and
after the two advances `state()` is `Complete` with player results
`[{score: 0}, {score: 3}]`. -/
theorem claim_C3_rps_round :
    RPS.interpretConsoleCommand exG0 0 "r" =
      some { update_ui := none, advance := some (some .rock) } ∧
    RPS.interpretConsoleCommand exG1 1 "p" =
      some { update_ui := none, advance := some (some .paper) } ∧
    RPS.state exG2 =
      .complete { player_results := [{ score := 0 }, { score := 3 }] } := by
  refine ⟨?_, ?_, ?_⟩ <;> rfl

/-- Hook execution when every hook preceding the list succeeds. -/
theorem runHooks_all_ok (hooks : List Tx.TxHook)
    (h : ∀ x ∈ hooks, x.outcome = .ok ()) :
    Tx.runHooks hooks = (hooks.map Tx.TxHook.id, .ok ()) := by
  induction hooks with
  | nil => rfl
  | cons hd tl ih =>
    have hhd : hd.outcome = .ok () := h hd (List.mem_cons_self _ _)
    have htl : ∀ x ∈ tl, x.outcome = .ok () := fun x hx => h x (List.mem_cons_of_mem _ hx)
    simp [Tx.runHooks, hhd, ih htl]

/-- Hook execution stops at the first failing hook. -/
theorem runHooks_first_error (pre : List Tx.TxHook) (h : Tx.TxHook)
    (post : List Tx.TxHook) (e : String)
    (hpre : ∀ x ∈ pre, x.outcome = .ok ()) (he : h.outcome = .error e) :
    Tx.runHooks (pre ++ h :: post) = (pre.map Tx.TxHook.id ++ [h.id], .error e) := by
  induction pre with
  | nil => simp [Tx.runHooks, he]
  | cons hd tl ih =>
    have hhd : hd.outcome = .ok () := hpre hd (List.mem_cons_self _ _)
    have htl : ∀ x ∈ tl, x.outcome = .ok () := fun x hx => hpre x (List.mem_cons_of_mem _ hx)
    simp [Tx.runHooks, hhd, ih htl]

/-- Claim C2, counterexample: with a first hook that fails and a second that
would succeed, a successful commit executes only the first hook — the second
registered hook never fires, contradicting "every registered hook executes
... regardless of the outcome of earlier hooks". -/
theorem claim_C2_counterexample :
    (Tx.commitTx [⟨0, .error "boom"⟩, ⟨1, .ok ()⟩] (.ok ())).1 = [0] ∧
    1 ∉ (Tx.commitTx [⟨0, .error "boom"⟩, ⟨1, .ok ()⟩] (.ok ())).1 := by
  decide

/-- Claim C2, amended: no hook runs on rollback (drop without commit) or when
the inner commit fails; after a successful inner commit the hooks run in
registration order, each at most once, but only up to and including the first
failing hook — if every hook succeeds, all of them fire in order. -/
theorem claim_C2_amended (hooks : List Tx.TxHook) (innerResult : Except String Unit) :
    (Tx.dropTx hooks = []) ∧
    (∀ e, innerResult = .error e → (Tx.commitTx hooks innerResult).1 = []) ∧
    ((∀ x ∈ hooks, x.outcome = .ok ()) →
      Tx.commitTx hooks (.ok ()) = (hooks.map Tx.TxHook.id, .ok ())) ∧
    (∀ pre h post e, hooks = pre ++ h :: post →
      (∀ x ∈ pre, x.outcome = .ok ()) → h.outcome = .error e →
      Tx.commitTx hooks (.ok ()) = (pre.map Tx.TxHook.id ++ [h.id], .error e)) := by
  refine ⟨rfl, ?_, ?_, ?_⟩
  · intro e he
    simp [Tx.commitTx, he]
  · intro hall
    simpa [Tx.commitTx] using runHooks_all_ok hooks hall
  · intro pre h post e hsplit hpre he
    subst hsplit
    simpa [Tx.commitTx] using runHooks_first_error pre h post e hpre he

/-- Witness for the amended C2 theorem: three hooks of which the middle one
fails; exactly the first two execute, in order. -/
theorem claim_C2_amended_witness :
    Tx.commitTx [⟨0, .ok ()⟩, ⟨1, .error "x"⟩, ⟨2, .ok ()⟩] (.ok ()) =
      ([0, 1], .error "x") := by
  have := (claim_C2_amended [⟨0, .ok ()⟩, ⟨1, .error "x"⟩, ⟨2, .ok ()⟩]
    (.ok ())).2.2.2 [⟨0, .ok ()⟩] ⟨1, .error "x"⟩ [⟨2, .ok ()⟩] "x" rfl
    (by decide) rfl
  simpa using this

/-- Claim C1: every driver operation appends exactly one request to the wire
and consumes exactly one response line; it can succeed only when the consumed
response's discriminator equals the request's, and whenever the response's
discriminator differs the operation returns the fatal
`response_type_error`. -/
theorem claim_C1_driver_pairing (S A R : Type) (req : Driver.GameProcessRequest S A R)
    (w : Driver.Wire S A R) :
    (Driver.runOp req w).2.output = w.output ++ [req] ∧
    (Driver.runOp req w).2.input = w.input.tail ∧
    (∀ v, (Driver.runOp req w).1 = .ok v →
      ∃ resp rest, w.input = resp :: rest ∧ Driver.respTag resp = Driver.reqTag req) ∧
    (∀ resp rest, w.input = resp :: rest → Driver.respTag resp ≠ Driver.reqTag req →
      (Driver.runOp req w).1 = .error .invalidResponse) := by
  obtain ⟨input, output⟩ := w
  cases input with
  | nil =>
    cases req <;>
      simp [Driver.runOp, Driver.init, Driver.loadSnapshot, Driver.saveSnapshot,
        Driver.advance, Driver.state, Driver.renderConsoleUi,
        Driver.interpretConsoleCommand, Driver.sendRequest, Except.map]
  | cons resp rest =>
    cases req <;> cases resp <;>
      (try (rename_i o; cases o)) <;>
      simp [Driver.runOp, Driver.init, Driver.loadSnapshot, Driver.saveSnapshot,
        Driver.advance, Driver.state, Driver.renderConsoleUi,
        Driver.interpretConsoleCommand, Driver.sendRequest,
        Driver.reqTag, Driver.respTag, Except.map]

/-- Witness for C1: a `SaveSnapshot` request answered by an `Advance` response
is a fatal invalid-response error. -/
theorem claim_C1_driver_pairing_witness :
    (Driver.runOp (S := Nat) (A := Nat) (R := Nat) .saveSnapshot
      { input := [.advance], output := [] }).1 = .error .invalidResponse := by
  exact (claim_C1_driver_pairing Nat Nat Nat .saveSnapshot
    { input := [.advance], output := [] }).2.2.2 .advance [] rfl (by decide)

/-- Claim C5: in the subprocess main loop, every request handled without error
is answered by a response with the same discriminator; any non-`Initialize`
request before initialization, and a second `Initialize` after it, fail the
loop with the `Unexpected gmae request` error. -/
theorem claim_C5_main_loop (σ S A R : Type) (impl : Process.GameImpl σ S A R)
    (game : Option σ) (req : Process.GameRequest S A R) :
    (∀ g2 resp, Process.mainStep impl game req = .ok (g2, resp) →
      Process.respTag resp = Process.reqTag req) ∧
    (game = none → (∀ setup, req ≠ .init setup) →
      Process.mainStep impl game req = .error "Unexpected gmae request") ∧
    (∀ g setup, game = some g →
      Process.mainStep impl (some g) (.init setup) = .error "Unexpected gmae request") := by
  refine ⟨?_, ?_, ?_⟩
  · intro g2 resp hok
    cases game <;> cases req <;>
      simp only [Process.mainStep, Except.map] at hok <;>
      first
        | cases hok
        | (split at hok <;> (cases hok; try rfl))
  · intro hnone hne
    subst hnone
    cases req with
    | init setup => exact absurd rfl (hne setup)
    | _ => rfl
  · intro g setup _
    rfl

/-- Witness for C5: the rock-paper-scissors implementation refuses a `State`
request before `Initialize`. -/
theorem claim_C5_main_loop_witness :
    Process.mainStep Process.rpsImpl none .state = .error "Unexpected gmae request" :=
  (claim_C5_main_loop _ _ _ _ Process.rpsImpl none .state).2.1 rfl
    (fun setup h => by cases h)

/-- Model of `Char.ofNat` round-trips on valid code points. -/
theorem charOfNatValid (n : Nat) (h : n.isValidChar) : (Char.ofNat n).toNat = n := by
  simp [Char.ofNat, h, Char.toNat, Char.ofNatAux, UInt32.toNat, BitVec.toNat_ofNatLt]

/-- ASCII lowercasing of a character is idempotent. -/
theorem asciiLowerChar_idem (c : Char) :
    asciiLowerChar (asciiLowerChar c) = asciiLowerChar c := by
  unfold asciiLowerChar
  by_cases h : 65 ≤ c.toNat ∧ c.toNat ≤ 90
  · rw [if_pos h]
    have ht : (Char.ofNat (c.toNat + 32)).toNat = c.toNat + 32 :=
      charOfNatValid _ (Or.inl (by omega))
    rw [if_neg]
    rw [ht]
    omega
  · rw [if_neg h, if_neg h]

/-- ASCII lowercasing of a string is idempotent. -/
theorem asciiLower_idem (s : String) : asciiLower (asciiLower s) = asciiLower s := by
  unfold asciiLower
  congr 1
  rw [List.map_map]
  exact List.map_congr_left fun a _ => asciiLowerChar_idem a

/-- Model of `eq_ignore_ascii_case` is insensitive to the ASCII case of its argument. -/
theorem eqIgnoreAsciiCase_lower (a b : String) :
    Tui.eqIgnoreAsciiCase a (asciiLower b) = Tui.eqIgnoreAsciiCase a b := by
  unfold Tui.eqIgnoreAsciiCase
  rw [asciiLower_idem]

/-- The command lookup is insensitive to the ASCII case of the token. -/
theorem findCommand_lower (groups : List Tui.UiGroup) (part : String) :
    Tui.findCommand groups (asciiLower part) = Tui.findCommand groups part := by
  unfold Tui.findCommand
  have hf :
      (fun g : Tui.UiGroup =>
        g.command.find? fun c => Tui.eqIgnoreAsciiCase c.name (asciiLower part)) =
      fun g : Tui.UiGroup =>
        g.command.find? fun c => Tui.eqIgnoreAsciiCase c.name part := by
    funext g
    have hp :
        (fun c : Tui.UiCommand => Tui.eqIgnoreAsciiCase c.name (asciiLower part)) =
        fun c : Tui.UiCommand => Tui.eqIgnoreAsciiCase c.name part := by
      funext c
      exact eqIgnoreAsciiCase_lower _ _
    rw [hp]
  rw [hf]

/-- Claim C6: the interpreter is a no-op on a line with no tokens; when the
first token matches no configured command name (ASCII-case-insensitively) it
produces exactly the `Unrecognised command` response prompt; and command
lookup is ASCII-case-insensitive in the token. -/
theorem claim_C6_command_interpreter (ui : Tui.Ui) (line : String) :
    (Tui.tokens line = [] → Tui.interpretCommandInner ui line = .noop) ∧
    (∀ part rest, Tui.tokens line = part :: rest →
      (∀ g ∈ ui.group, ∀ c ∈ Tui.UiGroup.command g,
        Tui.eqIgnoreAsciiCase (Tui.UiCommand.name c) part = false) →
      Tui.interpretCommandInner ui line =
        .response "Unrecognised command. Use `help` for more information.\n") ∧
    (∀ part, Tui.findCommand ui.group (asciiLower part) = Tui.findCommand ui.group part) := by
  refine ⟨?_, ?_, fun part => findCommand_lower _ _⟩
  · intro h
    unfold Tui.interpretCommandInner
    rw [h]
  · intro part rest htok hnone
    unfold Tui.interpretCommandInner
    rw [htok]
    have hnoneF : Tui.findCommand ui.group part = none := by
      unfold Tui.findCommand
      apply List.findSome?_eq_none_iff.mpr
      intro g hg
      apply List.find?_eq_none.mpr
      intro c hc
      simp [hnone g hg c hc]
    simp [hnoneF]

/-- Witness for C6: with a configuration holding only the command `propose`,
the line `foo` yields the unrecognised-command prompt. -/
theorem claim_C6_command_interpreter_witness :
    Tui.interpretCommandInner
      { help_text := "", group := [.mk "" [.mk "" "propose" "game_type" []]] } "foo" =
      .response "Unrecognised command. Use `help` for more information.\n" :=
  (claim_C6_command_interpreter _ "foo").2.1 "foo" [] rfl (by decide)

/-- The rendered digit characters round-trip through `digitVal`. -/
theorem digitVal_digitChar (d : Nat) (h : d < 10) :
    Ids.digitVal (Ids.digitChar d) = some d := by
  unfold Ids.digitVal Ids.digitChar
  have ht : (Char.ofNat (48 + d)).toNat = 48 + d := charOfNatValid _ (Or.inl (by omega))
  rw [ht, if_pos (by omega)]
  congr 1
  omega

/-- Model of `parseDigitsAux` evaluates a rendered digit list as a left fold. -/
theorem parseDigitsAux_map (l : List Nat) (h : ∀ d ∈ l, d < 10) (acc : Nat) :
    Ids.parseDigitsAux (l.map Ids.digitChar) acc =
      some (l.foldl (fun a d => a * 10 + d) acc) := by
  induction l generalizing acc with
  | nil => rfl
  | cons d t ih =>
    have hd : d < 10 := h d (List.mem_cons_self _ _)
    simp [Ids.parseDigitsAux, digitVal_digitChar d hd,
      ih (fun x hx => h x (List.mem_cons_of_mem _ hx))]

/-- The left fold over the reversed digit list recovers `Nat.ofDigits`. -/
theorem foldl_reverse_ofDigits (l : List Nat) :
    l.reverse.foldl (fun a d => a * 10 + d) 0 = Nat.ofDigits 10 l := by
  induction l with
  | nil => rfl
  | cons d t ih =>
    simp [List.foldl_append, ih, Nat.ofDigits_cons]
    ring

/-- Every character of `natDecimal n` is a decimal digit. -/
theorem natDecimal_digits (n : Nat) :
    ∀ c ∈ Ids.natDecimal n, 48 ≤ c.toNat ∧ c.toNat ≤ 57 := by
  unfold Ids.natDecimal
  by_cases h : n = 0
  · simp [h, Ids.digitChar, charOfNatValid 48 (Or.inl (by omega))]
  · rw [if_neg h]
    intro c hc
    obtain ⟨d, hdm, hdc⟩ := List.mem_map.mp hc
    have hd : d < 10 :=
      Nat.digits_lt_base (by omega) (List.mem_reverse.mp hdm)
    have := charOfNatValid (48 + d) (Or.inl (by omega))
    subst hdc
    unfold Ids.digitChar
    omega

/-- Model of `natDecimal` is never empty. -/
theorem natDecimal_ne_nil (n : Nat) : Ids.natDecimal n ≠ [] := by
  unfold Ids.natDecimal
  by_cases h : n = 0
  · simp [h]
  · rw [if_neg h]
    simp [Nat.digits_ne_nil_iff_ne_zero.mpr h]

/-- Model of `parseDigitsAux` recovers `n` from `natDecimal n`. -/
theorem parseDigitsAux_natDecimal (n : Nat) :
    Ids.parseDigitsAux (Ids.natDecimal n) 0 = some n := by
  unfold Ids.natDecimal
  by_cases h : n = 0
  · simp [h]
    decide
  · rw [if_neg h]
    have hlt : ∀ d ∈ (Nat.digits 10 n).reverse, d < 10 := fun d hdm =>
      Nat.digits_lt_base (by omega) (List.mem_reverse.mp hdm)
    rw [parseDigitsAux_map _ hlt 0, foldl_reverse_ofDigits, Nat.ofDigits_digits]

/-- Model of `parseI64` recovers `n` from `natDecimal n` when it fits. -/
theorem parseI64_natDecimal (n : Nat) (h : (n : Int) < 2 ^ 63) :
    Ids.parseI64 (Ids.natDecimal n) = some (n : Int) := by
  obtain ⟨c, rest, heq⟩ := List.exists_cons_of_ne_nil (natDecimal_ne_nil n)
  have hc : 48 ≤ c.toNat ∧ c.toNat ≤ 57 :=
    natDecimal_digits n c (heq ▸ List.mem_cons_self _ _)
  have hminus : c ≠ '-' := by
    intro hceq
    rw [hceq] at hc
    exact absurd hc (by decide)
  have hplus : c ≠ '+' := by
    intro hceq
    rw [hceq] at hc
    exact absurd hc (by decide)
  rw [heq]
  unfold Ids.parseI64
  show (if c = '-' then Ids.parseI64Core true rest
    else if c = '+' then Ids.parseI64Core false rest
    else Ids.parseI64Core false (c :: rest)) = some (n : Int)
  rw [if_neg hminus, if_neg hplus, ← heq]
  unfold Ids.parseI64Core
  rw [if_neg (by simp [natDecimal_ne_nil n])]
  rw [parseDigitsAux_natDecimal]
  simp only [Bool.false_eq_true, if_false]
  rw [if_pos]
  constructor
  · have : (0 : Int) ≤ (n : Int) := Int.ofNat_nonneg n
    have h63 : (0 : Int) < 2 ^ 63 := by positivity
    omega
  · exact h

/-- Claim C7: for every typed id and every `i64` value, parsing the rendered
form yields the value back, and parsing any string that does not begin with
that id type's one-letter rendering character fails. -/
theorem claim_C7_typed_ids (k : Ids.IdKind) (v : Int) (s : String)
    (h1 : -(2 ^ 63) ≤ v) (h2 : v < 2 ^ 63) :
    Ids.parseId k (Ids.formatId k v) = some v ∧
    (s.data.head? ≠ some (Ids.letterChar k) → Ids.parseId k s = none) := by
  constructor
  · unfold Ids.formatId Ids.parseId
    show (if Ids.letterChar k = Ids.letterChar k
      then Ids.parseI64 (Ids.intDecimal v) else none) = some v
    rw [if_pos rfl]
    unfold Ids.intDecimal
    by_cases hv : v < 0
    · rw [if_pos hv]
      unfold Ids.parseI64
      show Ids.parseI64Core true (Ids.natDecimal v.natAbs) = some v
      unfold Ids.parseI64Core
      rw [if_neg (by simp [natDecimal_ne_nil])]
      rw [parseDigitsAux_natDecimal]
      simp only [if_true]
      rw [if_pos]
      · congr 1
        omega
      · constructor
        · omega
        · have : 0 < v.natAbs := by omega
          omega
    · rw [if_neg hv]
      rw [parseI64_natDecimal v.natAbs (by omega)]
      congr 1
      omega
  · intro hne
    unfold Ids.parseId
    cases hs : s.data with
    | nil => rfl
    | cons c rest =>
      show (if c = Ids.letterChar k then Ids.parseI64 rest else none) = none
      rw [if_neg]
      intro hceq
      exact hne (by rw [hs, hceq]; rfl)

/-- Witness for C7: the user id `-42` round-trips, and a string starting with
`x` is not a user id. -/
theorem claim_C7_typed_ids_witness :
    Ids.parseId .user (Ids.formatId .user (-42)) = some (-42) ∧
    Ids.parseId .user "x7" = none := by
  have h := claim_C7_typed_ids .user (-42) "x7" (by norm_num) (by norm_num)
  exact ⟨h.1, h.2 (by decide)⟩

/-- Claim C8, counterexample: a `Withdraw` intent is not rejected as a soft
failure — the handler hits `todo!()`, which panics: the run loop's outcome is
an abort with no error line presented, not a continuation. -/
theorem claim_C8_counterexample :
    (Conn.handlePresentationMsg
        ⟨.ok (), .ok [], .ok [], .ok [], .ok ()⟩ ⟨false⟩ (.withdraw 1)).1 =
      .panicked "not yet implemented" ∧
    Conn.runPolicy (Conn.handlePresentationMsg
        ⟨.ok (), .ok [], .ok [], .ok [], .ok ()⟩ ⟨false⟩ (.withdraw 1)) =
      .aborts "not yet implemented" :=
  ⟨rfl, rfl⟩

/-- Claim C8, amended: for every environment, state and proposal id, a
`Withdraw` intent makes the handler panic (`todo!()`), sending nothing; the
run loop then aborts the connection actor instead of presenting an error line
and continuing. -/
theorem claim_C8_amended (env : Conn.ConnEnv) (st : Conn.ConnState) (pid : Int) :
    Conn.handlePresentationMsg env st (.withdraw pid) =
      (.panicked "not yet implemented", st, []) ∧
    Conn.runPolicy (Conn.handlePresentationMsg env st (.withdraw pid)) =
      .aborts "not yet implemented" :=
  ⟨rfl, rfl⟩

/-- The rock-paper-scissors console render is `Ok(None)` except exactly when
there is no pending player-0 action, at least one round has been played, and
the player number is neither 0 nor 1, in which case it is the
`Invalid player number` error. -/
theorem renderConsoleUi_characterization (g : RPS.Game) (player : Int) :
    RPS.renderConsoleUi g player =
      (if g.state.player0_action = none ∧ 0 < g.state.rounds_played ∧
          player ≠ 0 ∧ player ≠ 1
        then .error "Invalid player number" else .ok none) := by
  by_cases h0 : g.state.player0_action = none <;>
    by_cases hr : 0 < g.state.rounds_played <;>
      by_cases hp0 : player = 0 <;>
        by_cases hp1 : player = 1 <;>
          simp [RPS.renderConsoleUi, h0, hr, hp0, hp1, Option.isNone_iff_eq_none]

/-- Claim C9, counterexample: the state after round one with player 0's second
action pending is reachable, has one round played, and yet rendering for
player 2 succeeds (with `None`) instead of returning an error. -/
theorem claim_C9_counterexample :
    exH3.state.rounds_played = 1 ∧
    RPS.renderConsoleUi exH3 2 = .ok none :=
  ⟨rfl, rfl⟩

/-- Claim C9, amended: whenever `render_console_ui` succeeds its value is
`None` (the composed prompt is discarded); it returns the
`Invalid player number` error exactly when the player is neither 0 nor 1, at
least one round has been played, and no player-0 action is pending; and the
driver turns a `RenderConsoleUi(None)` response into the
unsupported-presentation-mode error. -/
theorem claim_C9_amended (g : RPS.Game) (player : Int) :
    (∀ v, RPS.renderConsoleUi g player = .ok v → v = none) ∧
    (RPS.renderConsoleUi g player = .error "Invalid player number" ↔
      (g.state.player0_action = none ∧ 0 < g.state.rounds_played ∧
        player ≠ 0 ∧ player ≠ 1)) ∧
    (∀ w : Driver.Wire Unit Unit Unit,
      w.input.head? = some (.renderConsoleUi none) →
      (Driver.renderConsoleUi player w).1 = .error .unsupportedPresentationMode) := by
  have hchar := renderConsoleUi_characterization g player
  refine ⟨?_, ?_, ?_⟩
  · intro v hv
    rw [hchar] at hv
    split at hv
    · cases hv
    · injection hv with h
      exact h.symm
  · rw [hchar]
    split
    · simp_all
    · simp_all
  · intro w hw
    obtain ⟨input, output⟩ := w
    cases input with
    | nil => cases hw
    | cons r rest =>
      simp only [List.head?] at hw
      injection hw with h
      subst h
      rfl

/-- Witness for C9: after one completed round an invalid player number is an
error, and a `None` payload through the driver is the
unsupported-presentation-mode error. -/
theorem claim_C9_amended_witness :
    RPS.renderConsoleUi exH2 5 = .error "Invalid player number" ∧
    (Driver.renderConsoleUi (S := Unit) (A := Unit) (R := Unit) 0
      { input := [.renderConsoleUi none], output := [] }).1 =
      .error .unsupportedPresentationMode :=
  ⟨(claim_C9_amended exH2 5).2.1.mpr ⟨rfl, by decide, by decide, by decide⟩,
    (claim_C9_amended exH2 0).2.2 _ rfl⟩

/-- Claim C10: creating a proposal inserts, against the same transaction, a
proposal row with the fixed defaults (not public, 2–8 players, `mod_players`
1, null rules, deadline five minutes after creation) together with a
`GameProposal` session row seating the proposing user at that proposal. -/
theorem claim_C10_proposal_creation (db : Db.Store) (game_type : String)
    (user_id : Int) :
    (Db.proposalCreate db game_type user_id).2.game_type = game_type ∧
    (Db.proposalCreate db game_type user_id).2.is_public = false ∧
    (Db.proposalCreate db game_type user_id).2.min_players = 2 ∧
    (Db.proposalCreate db game_type user_id).2.max_players = 8 ∧
    (Db.proposalCreate db game_type user_id).2.mod_players = 1 ∧
    (Db.proposalCreate db game_type user_id).2.rules = .null ∧
    (Db.proposalCreate db game_type user_id).2.deadline = db.now + 5 * 60 ∧
    (Db.proposalCreate db game_type user_id).1.proposals =
      db.proposals ++ [(Db.proposalCreate db game_type user_id).2] ∧
    (∃ srow ∈ (Db.proposalCreate db game_type user_id).1.sessions,
      srow.type_ = .gameProposal ∧ srow.user_id = user_id ∧
      srow.game_proposal_id = some (Db.proposalCreate db game_type user_id).2.id) := by
  refine ⟨rfl, rfl, rfl, rfl, rfl, rfl, rfl, rfl, ?_⟩
  refine ⟨_, List.mem_append_right _ (List.mem_singleton.mpr rfl), rfl, rfl, rfl⟩
/-- Connections are only ever removed by a broadcast. -/
theorem go_sublist (env : PActor.Env) (snapshot conns : List Int) (msg : PActor.SMsg) :
    (PActor.go env snapshot conns msg).val.1.Sublist conns := by
  induction snapshot, conns, msg using PActor.go.induct env with
  | case1 conns msg => simp [PActor.go]
  | case2 conns msg uid rest hmem htime conns1 h1 r1 ihA ihB ihC ihD =>
    rw [PActor.go]
    simp only [dif_pos hmem, if_pos htime]
    exact (ihC.trans ihA).trans (List.erase_sublist uid conns)
  | case3 conns msg uid rest hmem htime ih =>
    rw [PActor.go]
    simp only [htime, dif_pos hmem, Bool.false_eq_true, if_false]
    exact ih
  | case4 conns msg uid rest hmem ih =>
    rw [PActor.go]
    simp only [dif_neg hmem]
    exact ih

/-- Every snapshot member still connected at the end of the broadcast
received the message. -/
theorem go_delivers (env : PActor.Env) (snapshot conns : List Int) (msg : PActor.SMsg) :
    conns.Nodup → ∀ v ∈ snapshot, v ∈ (PActor.go env snapshot conns msg).val.1 →
      (v, msg) ∈ (PActor.go env snapshot conns msg).val.2 := by
  induction snapshot, conns, msg using PActor.go.induct env with
  | case1 conns msg => simp
  | case2 conns msg uid rest hmem htime conns1 h1 r1 ihA ihB ihC ihD =>
    intro hnd v hv hvf
    rw [PActor.go] at hvf ⊢
    simp only [dif_pos hmem, if_pos htime] at hvf ⊢
    have hndE : (conns.erase uid).Nodup := hnd.erase uid
    have hsub1 := go_sublist env (conns.erase uid) (conns.erase uid) (PActor.SMsg.userExited uid)
    have hndX : (PActor.go env (conns.erase uid) (conns.erase uid) (PActor.SMsg.userExited uid)).val.1.Nodup :=
      hsub1.nodup hndE
    rcases List.mem_cons.mp hv with hveq | hvrest
    · have hsub2 := go_sublist env rest
        (PActor.go env (conns.erase uid) (conns.erase uid) (PActor.SMsg.userExited uid)).val.1 msg
      have hvE : v ∈ conns.erase uid := hsub1.subset (hsub2.subset hvf)
      rw [hveq] at hvE
      exact absurd rfl ((hnd.mem_erase_iff.mp hvE).1)
    · exact List.mem_append_right _ (ihD hndX v hvrest hvf)
  | case3 conns msg uid rest hmem htime ih =>
    intro hnd v hv hvf
    rw [PActor.go] at hvf ⊢
    simp only [htime, dif_pos hmem, Bool.false_eq_true, if_false] at hvf ⊢
    rcases List.mem_cons.mp hv with hveq | hvrest
    · rw [hveq]
      exact List.mem_cons_self _ _
    · exact List.mem_cons_of_mem _ (ih hnd v hvrest hvf)
  | case4 conns msg uid rest hmem ih =>
    intro hnd v hv hvf
    rw [PActor.go] at hvf ⊢
    simp only [dif_neg hmem] at hvf ⊢
    rcases List.mem_cons.mp hv with hveq | hvrest
    · rw [hveq] at hvf
      exact absurd ((go_sublist env rest conns msg).subset hvf) hmem
    · exact ih hnd v hvrest hvf

/-- A user whose send of the broadcast message would time out is no longer
connected afterwards. -/
theorem go_evicts (env : PActor.Env) (snapshot conns : List Int) (msg : PActor.SMsg) :
    conns.Nodup → ∀ u ∈ snapshot, PActor.timesOut env u msg = true →
      u ∉ (PActor.go env snapshot conns msg).val.1 := by
  induction snapshot, conns, msg using PActor.go.induct env with
  | case1 conns msg => simp
  | case2 conns msg uid rest hmem htime conns1 h1 r1 ihA ihB ihC ihD =>
    intro hnd u hu hut
    rw [PActor.go]
    simp only [dif_pos hmem, if_pos htime]
    have hndE : (conns.erase uid).Nodup := hnd.erase uid
    have hsub1 := go_sublist env (conns.erase uid) (conns.erase uid) (PActor.SMsg.userExited uid)
    have hndX := hsub1.nodup hndE
    rcases List.mem_cons.mp hu with hueq | hurest
    · intro hfin
      have hsub2 := go_sublist env rest
        (PActor.go env (conns.erase uid) (conns.erase uid) (PActor.SMsg.userExited uid)).val.1 msg
      have huE : u ∈ conns.erase uid := hsub1.subset (hsub2.subset hfin)
      rw [hueq] at huE
      exact (hnd.mem_erase_iff.mp huE).1 rfl
    · exact ihD hndX u hurest hut
  | case3 conns msg uid rest hmem htime ih =>
    intro hnd u hu hut
    rw [PActor.go]
    simp only [htime, dif_pos hmem, Bool.false_eq_true, if_false]
    rcases List.mem_cons.mp hu with hueq | hurest
    · rw [hueq] at hut
      exact absurd hut (by simp [htime])
    · exact ih hnd u hurest hut
  | case4 conns msg uid rest hmem ih =>
    intro hnd u hu hut
    rw [PActor.go]
    simp only [dif_neg hmem]
    rcases List.mem_cons.mp hu with hueq | hurest
    · intro hfin
      rw [hueq] at hfin
      exact hmem ((go_sublist env rest conns msg).subset hfin)
    · exact ih hnd u hurest hut

/-- Every user connected at the start but gone at the end had `UserExited`
delivered to every user still connected at the end. -/
theorem go_exited (env : PActor.Env) (snapshot conns : List Int) (msg : PActor.SMsg) :
    conns.Nodup → ∀ u ∈ conns, u ∉ (PActor.go env snapshot conns msg).val.1 →
      ∀ v ∈ (PActor.go env snapshot conns msg).val.1,
        (v, PActor.SMsg.userExited u) ∈ (PActor.go env snapshot conns msg).val.2 := by
  induction snapshot, conns, msg using PActor.go.induct env with
  | case1 conns msg =>
    intro hnd u hu hunf v hv
    rw [PActor.go] at hunf
    exact absurd hu hunf
  | case2 conns msg uid rest hmem htime conns1 h1 r1 ihA ihB ihC ihD =>
    intro hnd u hu hunf v hv
    rw [PActor.go] at hunf hv ⊢
    simp only [dif_pos hmem, if_pos htime] at hunf hv ⊢
    have hndE : (conns.erase uid).Nodup := hnd.erase uid
    have hsub1 := go_sublist env (conns.erase uid) (conns.erase uid) (PActor.SMsg.userExited uid)
    have hndX := hsub1.nodup hndE
    have hsub2 := go_sublist env rest
      (PActor.go env (conns.erase uid) (conns.erase uid) (PActor.SMsg.userExited uid)).val.1 msg
    have hvX : v ∈ (PActor.go env (conns.erase uid) (conns.erase uid) (PActor.SMsg.userExited uid)).val.1 :=
      hsub2.subset hv
    by_cases hueq : u = uid
    · rw [hueq]
      exact List.mem_append_left _
        (go_delivers env (conns.erase uid) (conns.erase uid) (PActor.SMsg.userExited uid) hndE v
          (hsub1.subset hvX) hvX)
    · have huE : u ∈ conns.erase uid := (List.mem_erase_of_ne hueq).mpr hu
      by_cases huX : u ∈ (PActor.go env (conns.erase uid) (conns.erase uid) (PActor.SMsg.userExited uid)).val.1
      · exact List.mem_append_right _ (ihD hndX u huX hunf v hv)
      · exact List.mem_append_left _ (ihB hndE u huE huX v hvX)
  | case3 conns msg uid rest hmem htime ih =>
    intro hnd u hu hunf v hv
    rw [PActor.go] at hunf hv ⊢
    simp only [htime, dif_pos hmem, Bool.false_eq_true, if_false] at hunf hv ⊢
    exact List.mem_cons_of_mem _ (ih hnd u hu hunf v hv)
  | case4 conns msg uid rest hmem ih =>
    intro hnd u hu hunf v hv
    rw [PActor.go] at hunf hv ⊢
    simp only [dif_neg hmem] at hunf hv ⊢
    exact ih hnd u hu hunf v hv

/-- A user none of whose sends times out stays connected. -/
theorem go_survives (env : PActor.Env) (snapshot conns : List Int) (msg : PActor.SMsg) :
    ∀ v, (∀ m, PActor.timesOut env v m = false) → v ∈ conns →
      v ∈ (PActor.go env snapshot conns msg).val.1 := by
  induction snapshot, conns, msg using PActor.go.induct env with
  | case1 conns msg =>
    intro v hv hvc
    simpa [PActor.go] using hvc
  | case2 conns msg uid rest hmem htime conns1 h1 r1 ihA ihB ihC ihD =>
    intro v hv hvc
    rw [PActor.go]
    simp only [dif_pos hmem, if_pos htime]
    have hvne : v ≠ uid := by
      intro heq
      rw [heq] at hv
      rw [hv msg] at htime
      cases htime
    have hvE : v ∈ conns.erase uid := (List.mem_erase_of_ne hvne).mpr hvc
    exact ihD v hv (ihB v hv hvE)
  | case3 conns msg uid rest hmem htime ih =>
    intro v hv hvc
    rw [PActor.go]
    simp only [htime, dif_pos hmem, Bool.false_eq_true, if_false]
    exact ih v hv hvc
  | case4 conns msg uid rest hmem ih =>
    intro v hv hvc
    rw [PActor.go]
    simp only [dif_neg hmem]
    exact ih v hv hvc

/-- Claim C4: the proposal actor's per-send timeout is 200 ms; a user whose
send of the broadcast message times out is removed from the connection map,
and every removed user's `UserExited` is delivered to every user still
connected at the end; a recipient none of whose sends times out stays
connected and receives the original message. -/
theorem claim_C4_broadcast_timeouts (env : PActor.Env) (conns : List Int)
    (msg : PActor.SMsg) (hnd : conns.Nodup) :
    PActor.USER_TIMEOUT = 200 ∧
    (∀ u m, PActor.timesOut env u m = decide (PActor.USER_TIMEOUT < env.delay u m)) ∧
    (∀ u ∈ conns, PActor.timesOut env u msg = true →
      u ∉ (PActor.broadcast env conns msg).1) ∧
    (∀ u ∈ conns, u ∉ (PActor.broadcast env conns msg).1 →
      ∀ v ∈ (PActor.broadcast env conns msg).1,
        (v, PActor.SMsg.userExited u) ∈ (PActor.broadcast env conns msg).2) ∧
    (∀ v ∈ conns, (∀ m, PActor.timesOut env v m = false) →
      v ∈ (PActor.broadcast env conns msg).1 ∧
        (v, msg) ∈ (PActor.broadcast env conns msg).2) := by
  refine ⟨rfl, fun u m => rfl, ?_, ?_, ?_⟩
  · intro u hu hut
    exact go_evicts env conns conns msg hnd u hu hut
  · intro u hu hunf v hv
    exact go_exited env conns conns msg hnd u hu hunf v hv
  · intro v hv hnl
    have hfin : v ∈ (PActor.broadcast env conns msg).1 :=
      go_survives env conns conns msg v hnl hv
    exact ⟨hfin, go_delivers env conns conns msg hnd v hv hfin⟩

/-- Witness for C4: with instantaneous recipients, user 2 of `[1, 2]` stays
connected and receives the line. -/
theorem claim_C4_broadcast_timeouts_witness :
    (2 : Int) ∈ (PActor.broadcast ⟨fun _ _ => 0⟩ [1, 2] (.line "hello")).1 ∧
    ((2 : Int), PActor.SMsg.line "hello") ∈
      (PActor.broadcast ⟨fun _ _ => 0⟩ [1, 2] (.line "hello")).2 :=
  (claim_C4_broadcast_timeouts ⟨fun _ _ => 0⟩ [1, 2] (.line "hello")
    (by decide)).2.2.2.2 2 (by decide) (fun m => rfl)
